import Mathlib

/-!
Shallow embedding of the data-cleaning core of the
multinational-data-centralisation repository (src/data_cleaning.py).

Tables are modelled as a schema (ordered column names) plus rows of cell
values; pandas cells are modelled by the Value type, with np.nan as the
canonical missing marker.  Python floats are modelled by exact rationals.
Functions from the source keep their source names.  Calls into the pandas
library itself (pd.to_datetime, pd.to_numeric, Series.str.replace) are
modelled by Lean functions whose doc comments state the scope of the model.
-/

namespace DataCleaning

/-- A calendar date as produced by the date parsers (pandas Timestamp with
midnight time component). -/
structure PDate where
  year : Nat
  month : Nat
  day : Nat
deriving DecidableEq, Repr

/-- A date together with a time of day, as produced by
combine_datetime_columns. -/
structure PDateTime where
  year : Nat
  month : Nat
  day : Nat
  hour : Nat
  minute : Nat
  second : Nat
deriving DecidableEq, Repr

/-- A pandas cell value: a string, a numeric value (python float modelled as
an exact rational), a date, a datetime, or the missing marker np.nan. -/
inductive Value where
  | str : String → Value
  | num : ℚ → Value
  | date : PDate → Value
  | dt : PDateTime → Value
  | nan : Value
deriving DecidableEq, Repr

/-- Model of python str() on a cell value.  For strings this is the string
itself and for np.nan it is the string "nan", exactly as in python; numeric,
date and datetime renderings are deterministic stand-ins (no claim evaluates
them). -/
def pyStr : Value → String
  | .str s => s
  | .nan => "nan"
  | .num q => toString q.num ++ (if q.den = 1 then ".0" else "/" ++ toString q.den)
  | .date d => toString d.year ++ "-" ++ toString d.month ++ "-" ++ toString d.day
  | .dt d => toString d.year ++ "-" ++ toString d.month ++ "-" ++ toString d.day
      ++ " " ++ toString d.hour ++ ":" ++ toString d.minute ++ ":" ++ toString d.second

/-- Model of pd.isna on a cell value. -/
def isna (v : Value) : Bool := v == .nan

/-- A char of the ASCII word class (python regex word char). -/
def isWordChar (c : Char) : Bool := c.isAlpha || c.isDigit || c == '_'

/-- Python str.isdigit for ASCII strings: nonempty and all digits. -/
def pyIsDigit (s : String) : Bool := !s.data.isEmpty && s.data.all Char.isDigit

/-- Python str.isalpha for ASCII strings: nonempty and all letters. -/
def pyIsAlpha (s : String) : Bool := !s.data.isEmpty && s.data.all Char.isAlpha

/-- Python str.isalnum for ASCII strings: nonempty and all letters-or-digits. -/
def pyIsAlnum (s : String) : Bool :=
  !s.data.isEmpty && s.data.all (fun c => c.isAlpha || c.isDigit)

/-- Numeric value of a digit run (meaningful when all chars are digits). -/
def digitsToNat (l : List Char) : Nat :=
  l.foldl (fun n c => n * 10 + (c.toNat - 48)) 0

/-- A char run made of digits only, with length between lo and hi. -/
def digitRun (l : List Char) (lo hi : Nat) : Bool :=
  l.all Char.isDigit && lo ≤ l.length && l.length ≤ hi

/-- Split a char list on a separator char, keeping empty components (the
semantics of python str.split and of String.splitOn for a one-char
separator). -/
def splitOnChar (sep : Char) : List Char → List (List Char)
  | [] => [[]]
  | c :: cs =>
      match splitOnChar sep cs with
      | [] => [[c]]
      | h :: t => if c == sep then [] :: h :: t else (c :: h) :: t

/-- Python whitespace for str.strip. -/
def isPySpace (c : Char) : Bool :=
  c == ' ' || c == '\t' || c == '\n' || c == '\r' || c == '\x0b' || c == '\x0c'

/-- Python str.strip: drop leading and trailing whitespace. -/
def pyStrip (l : List Char) : List Char :=
  ((l.dropWhile isPySpace).reverse.dropWhile isPySpace).reverse

/-- Gregorian leap year. -/
def isLeap (y : Nat) : Bool := y % 4 == 0 && (y % 100 != 0 || y % 400 == 0)

/-- Days in a month of a given year (0 for an invalid month number). -/
def daysInMonth (y m : Nat) : Nat :=
  if m == 1 then 31 else if m == 2 then (if isLeap y then 29 else 28)
  else if m == 3 then 31 else if m == 4 then 30 else if m == 5 then 31
  else if m == 6 then 30 else if m == 7 then 31 else if m == 8 then 31
  else if m == 9 then 30 else if m == 10 then 31 else if m == 11 then 30
  else if m == 12 then 31 else 0

/-- A valid calendar date (what datetime construction inside the pandas
parsers accepts). -/
def validDate (y m d : Nat) : Bool :=
  1 ≤ m && m ≤ 12 && 1 ≤ d && d ≤ daysInMonth y m

/-- Parse a nonnegative decimal literal (digits with at most one dot) into an
exact rational.  Models python float() restricted to the number shapes the
cleaning code extracts (the regex run of digits, optional dot, digits). -/
def parseDecimal (s : String) : Option ℚ :=
  match splitOnChar '.' s.data with
  | [i] => if !i.isEmpty && i.all Char.isDigit then some (mkRat (digitsToNat i) 1) else none
  | [i, f] =>
      if !(i ++ f).isEmpty && (i ++ f).all Char.isDigit then
        some (mkRat (digitsToNat i * 10 ^ f.length + digitsToNat f) (10 ^ f.length))
      else none
  | _ => none

instance {ε α : Type} [DecidableEq ε] [DecidableEq α] : DecidableEq (Except ε α) :=
  fun a b =>
    match a, b with
    | .ok x, .ok y =>
        if h : x = y then .isTrue (by rw [h]) else .isFalse (fun hc => h (Except.ok.inj hc))
    | .error x, .error y =>
        if h : x = y then .isTrue (by rw [h]) else .isFalse (fun hc => h (Except.error.inj hc))
    | .ok _, .error _ => .isFalse (fun hc => Except.noConfusion hc)
    | .error _, .ok _ => .isFalse (fun hc => Except.noConfusion hc)

/-- A pandas DataFrame: an ordered list of column names and a list of rows,
each row an ordered list of cell values aligned with the schema. -/
structure Table where
  schema : List String
  rows : List (List Value)
deriving DecidableEq, Repr

/-- Index of a column name in the schema (length of the schema if absent). -/
def colIdx (t : Table) (c : String) : Nat := t.schema.indexOf c

/-- The cell of a row at a column index (missing when out of range). -/
def cellAt (r : List Value) (i : Nat) : Value := r.getD i .nan

/-- Apply a function to every cell of one named column
(df[c] = df[c].apply(f)). -/
def mapCol (t : Table) (c : String) (f : Value → Value) : Table :=
  { t with rows := t.rows.map (fun r => r.set (colIdx t c) (f (cellAt r (colIdx t c)))) }

/-- Cell map of standardize_nulls: the sentinel tokens NULL, None, N/A and
the empty string become np.nan (df.replace followed by
df.where(pd.notnull(df), np.nan), which leaves non-null cells unchanged). -/
def standardizeCell (v : Value) : Value :=
  if v == .str "NULL" || v == .str "None" || v == .str "N/A" || v == .str "" then .nan else v

/-- standardize_nulls from the source: replace every sentinel cell in the
whole table by np.nan. -/
def standardize_nulls (t : Table) : Table :=
  { t with rows := t.rows.map (fun r => r.map standardizeCell) }

/-- The country-column lambda of clean_country_columns: keep x unless
str(x) contains a digit. -/
def countryCell (v : Value) : Value :=
  if (pyStr v).data.any Char.isDigit then .nan else v

/-- The country_code lambda of clean_country_columns: keep x only when
str(x) has no digit and length at most 3. -/
def countryCodeCell (v : Value) : Value :=
  if !(pyStr v).data.any Char.isDigit && (pyStr v).length ≤ 3 then v else .nan

/-- The direct substitution df.replace applied to country_code after
filtering: the literal GGB becomes GB, all other cells unchanged. -/
def countryCodeFix (v : Value) : Value :=
  if v == .str "GGB" then .str "GB" else v

/-- clean_country_columns from the source: filter the country column by the
digit rule, filter country_code by the digit-and-length rule, then replace
the literal GGB by GB in country_code. -/
def clean_country_columns (t : Table) : Table :=
  let t1 := mapCol t "country" countryCell
  let t2 := mapCol t1 "country_code" countryCodeCell
  mapCol t2 "country_code" countryCodeFix

/-- The phone_number lambda: re.sub of every non-digit char of str(x) by the
empty string, always producing a string cell. -/
def phoneCell (v : Value) : Value :=
  .str (String.mk ((pyStr v).data.filter Char.isDigit))

/-- clean_phone_number from the source. -/
def clean_phone_number (t : Table) : Table := mapCol t "phone_number" phoneCell

/-- is_invalid_pattern from remove_invalid_rows: a string cell of length 10
that is alphanumeric but neither all digits nor all letters. -/
def is_invalid_pattern (v : Value) : Bool :=
  match v with
  | .str s => s.length == 10 && pyIsAlnum s && !pyIsDigit s && !pyIsAlpha s
  | _ => false

/-- remove_invalid_rows from the source: drop every row in which some cell
matches is_invalid_pattern. -/
def remove_invalid_rows (t : Table) : Table :=
  { t with rows := t.rows.filter (fun r => !r.any is_invalid_pattern) }

/-- remove_invalid_rows_date_events_data from the source (textually the same
filter as remove_invalid_rows). -/
def remove_invalid_rows_date_events_data (t : Table) : Table :=
  { t with rows := t.rows.filter (fun r => !r.any is_invalid_pattern) }

/-- remove_invalid_rows_excluding_store_code from the source: keep a row when
its store_code cell is not missing, or when that cell equals the literal
WEB-1388012W. -/
def remove_invalid_rows_excluding_store_code (t : Table) : Table :=
  let i := colIdx t "store_code"
  { t with rows :=
      t.rows.filter (fun r => !isna (cellAt r i) || (cellAt r i == .str "WEB-1388012W")) }

/-- The row-drop condition that the specification ascribes to
remove_invalid_rows_excluding_store_code, written from the words of the
spec for comparison with the source function: a row is dropped when it has a
10-character alphanumeric-mixed cell and its store_code is not the
designated literal, or when its store_code is missing and not that
literal. -/
def specDropExcludingStoreCode (i : Nat) (r : List Value) : Bool :=
  (r.any is_invalid_pattern && !(cellAt r i == .str "WEB-1388012W"))
    || (isna (cellAt r i) && !(cellAt r i == .str "WEB-1388012W"))

/-- The table transform the specification describes (drop exactly the rows
matched by specDropExcludingStoreCode). -/
def removeInvalidExcludingStoreCodeSpec (t : Table) : Table :=
  let i := colIdx t "store_code"
  { t with rows := t.rows.filter (fun r => !specDropExcludingStoreCode i r) }

/-- drop_columns from the source: df.drop(columns=cols, errors=ignore),
removing every listed column that is present and ignoring absent names. -/
def drop_columns (t : Table) (cols : List String) : Table :=
  { schema := t.schema.filter (fun c => !cols.contains c),
    rows := t.rows.map (fun r =>
      ((t.schema.zip r).filter (fun p => !cols.contains p.1)).map Prod.snd) }

/-- df.rename(columns={old: new}). -/
def renameCol (t : Table) (old new : String) : Table :=
  { t with schema := t.schema.map (fun c => if c == old then new else c) }

/-- Model of pd.to_numeric(x, errors=coerce) on a cell, scoped to the value
shapes the pipelines produce: numbers pass through, parseable decimal
strings become numbers, everything else becomes missing. -/
def pdToNumeric (v : Value) : Value :=
  match v with
  | .num q => .num q
  | .str s => match parseDecimal s with
      | some q => .num q
      | none => .nan
  | _ => .nan

/-- convert_data_types from the source: pd.to_numeric with coercion on each
listed column. -/
def convert_data_types (t : Table) (cols : List String) : Table :=
  cols.foldl (fun acc c => mapCol acc c pdToNumeric) t

/-- Construct a date when its components form a valid calendar date, as the
datetime construction inside the parsers does (raising, modelled by none,
otherwise). -/
def mkDate (y m d : Nat) : Option PDate :=
  if validDate y m d then some ⟨y, m, d⟩ else none

/-- Model of the pandas generic parser pd.to_datetime(x, errors=coerce) with
its default month-first preference (dayfirst False), scoped to the numeric
dash/slash string shapes the claims exercise: four-digit-year dash and slash
dates, and one-or-two-digit slash component dates with a four-digit year
(month-first, swapping day and month when the first component cannot be a
month, as dateutil does).  A string that carries no year, such as a
two-component month/day or month/year slash pair, is NOT completed with the
current date: the generic parser fills missing fields from its default of
datetime(1,1,1), the resulting year-1 value lies outside Timestamp bounds,
and coercion yields NaT, so such strings fall through to the explicit
format chain.  Strings of any other shape are likewise not parsed by this
model and fall through to the explicit format chain. -/
def pdGenericDateStr (s : String) : Option PDate :=
  match splitOnChar '-' s.data with
  | [y, m, d] =>
      if digitRun y 4 4 && digitRun m 1 2 && digitRun d 1 2 then
        mkDate (digitsToNat y) (digitsToNat m) (digitsToNat d)
      else none
  | [_] =>
      match splitOnChar '/' s.data with
      | [a, b, c] =>
          if digitRun a 1 2 && digitRun b 1 2 && digitRun c 4 4 then
            let av := digitsToNat a
            let bv := digitsToNat b
            let yv := digitsToNat c
            if validDate yv av bv then some ⟨yv, av, bv⟩
            else if validDate yv bv av then some ⟨yv, bv, av⟩
            else none
          else if digitRun a 4 4 && digitRun b 1 2 && digitRun c 1 2 then
            mkDate (digitsToNat a) (digitsToNat b) (digitsToNat c)
          else none
      | _ => none
  | _ => none

/-- The generic parser lifted to cells: an existing date passes through and
any non-string, non-date cell coerces to missing. -/
def pdGenericDate (v : Value) : Option PDate :=
  match v with
  | .str s => pdGenericDateStr s
  | .date d => some d
  | _ => none

/-- Shape test for the regex of four digits, dash, two digits, dash, two
digits anchored at both ends. -/
def reYMDdash (s : String) : Bool :=
  match splitOnChar '-' s.data with
  | [y, m, d] => digitRun y 4 4 && digitRun m 2 2 && digitRun d 2 2
  | _ => false

/-- Shape test for four digits, slash, two digits, slash, two digits. -/
def reYMDslash (s : String) : Bool :=
  match splitOnChar '/' s.data with
  | [y, m, d] => digitRun y 4 4 && digitRun m 2 2 && digitRun d 2 2
  | _ => false

/-- Shape test for two digits, slash, two digits, slash, four digits. -/
def reDMY (s : String) : Bool :=
  match splitOnChar '/' s.data with
  | [d, m, y] => digitRun d 2 2 && digitRun m 2 2 && digitRun y 4 4
  | _ => false

/-- Shape test for two digits, slash, two digits. -/
def reMY (s : String) : Bool :=
  match splitOnChar '/' s.data with
  | [m, y] => digitRun m 2 2 && digitRun y 2 2
  | _ => false

/-- Shape test for a word-char run, space, four digits, space, two digits. -/
def reWordYD (s : String) : Bool :=
  match splitOnChar ' ' s.data with
  | [w, y, d] => !w.isEmpty && w.all isWordChar && digitRun y 4 4 && digitRun d 2 2
  | _ => false

/-- Shape test for four digits, space, a word-char run, space, two digits. -/
def reYWordD (s : String) : Bool :=
  match splitOnChar ' ' s.data with
  | [y, w, d] => digitRun y 4 4 && !w.isEmpty && w.all isWordChar && digitRun d 2 2
  | _ => false

/-- Full English month names for strptime directive %B (matched
case-insensitively, as python strptime does). -/
def monthNames : List (String × Nat) :=
  [("january", 1), ("february", 2), ("march", 3), ("april", 4), ("may", 5),
   ("june", 6), ("july", 7), ("august", 8), ("september", 9), ("october", 10),
   ("november", 11), ("december", 12)]

/-- Month number of a month-name token, none when the token is not a month
name (strptime raises there, caught by the surrounding try). -/
def monthFromName (w : List Char) : Option Nat :=
  (monthNames.find? (fun p => p.1 == String.mk (w.map Char.toLower))).map Prod.snd

/-- strptime with format year-month-day over the given separator. -/
def strpYMD (sep : Char) (s : String) : Option PDate :=
  match splitOnChar sep s.data with
  | [y, m, d] => mkDate (digitsToNat y) (digitsToNat m) (digitsToNat d)
  | _ => none

/-- strptime with format day/month/year. -/
def strpDMY (s : String) : Option PDate :=
  match splitOnChar '/' s.data with
  | [d, m, y] => mkDate (digitsToNat y) (digitsToNat m) (digitsToNat d)
  | _ => none

/-- strptime with format month/two-digit-year: years 00 to 68 map into the
2000s and 69 to 99 into the 1900s, day defaults to 1. -/
def strpMY (s : String) : Option PDate :=
  match splitOnChar '/' s.data with
  | [m, y] =>
      let yy := digitsToNat y
      mkDate (if yy ≤ 68 then 2000 + yy else 1900 + yy) (digitsToNat m) 1
  | _ => none

/-- strptime with format month-name year day. -/
def strpWordYD (s : String) : Option PDate :=
  match splitOnChar ' ' s.data with
  | [w, y, d] =>
      match monthFromName w with
      | some m => mkDate (digitsToNat y) m (digitsToNat d)
      | none => none
  | _ => none

/-- strptime with format year month-name day. -/
def strpYWordD (s : String) : Option PDate :=
  match splitOnChar ' ' s.data with
  | [y, w, d] =>
      match monthFromName w with
      | some m => mkDate (digitsToNat y) m (digitsToNat d)
      | none => none
  | _ => none

/-- parse_non_standard_dates from the source: an ordered chain of anchored
format tests, first match committing to its strptime parse; a parse
exception anywhere (including an invalid calendar date or an unknown month
name) is caught and becomes missing; a non-string argument raises inside
re.match and is likewise caught.  The final fallback is the generic parser
with coercion. -/
def parse_non_standard_dates (v : Value) : Option PDate :=
  match v with
  | .str s =>
      if reYMDdash s then strpYMD '-' s
      else if reYMDslash s then strpYMD '/' s
      else if reDMY s then strpDMY s
      else if reMY s then strpMY s
      else if reWordYD s then strpWordYD s
      else if reYWordD s then strpYWordD s
      else pdGenericDateStr s
  | _ => none

/-- The per-cell transform of clean_dates: the generic parser first, and only
when it coerces to missing the explicit chain of parse_non_standard_dates;
an unparseable cell becomes missing. -/
def cleanDateCell (v : Value) : Value :=
  match pdGenericDate v with
  | some d => .date d
  | none =>
      match parse_non_standard_dates v with
      | some d => .date d
      | none => .nan

/-- clean_dates from the source, over the listed columns. -/
def clean_dates (t : Table) (cols : List String) : Table :=
  cols.foldl (fun acc c => mapCol acc c cleanDateCell) t

/-- Split a char list at the first run matching the regex of one-or-more
digits, an optional dot, and further digits: returns the text before the
run, the run, and the text after it, or none when no digit occurs. -/
def splitFirstNumRun : List Char → Option (List Char × List Char × List Char)
  | [] => none
  | c :: cs =>
      if c.isDigit then
        let ds := (c :: cs).takeWhile Char.isDigit
        match (c :: cs).dropWhile Char.isDigit with
        | '.' :: rest2 =>
            some ([], ds ++ '.' :: rest2.takeWhile Char.isDigit,
                  rest2.dropWhile Char.isDigit)
        | rest1 => some ([], ds, rest1)
      else
        match splitFirstNumRun cs with
        | some (p, m, r) => some (c :: p, m, r)
        | none => none

/-- extract_number_unit from clean_weight_column: a missing cell yields no
pair; a string cell has its spaces removed and is split at the first numeric
run, the run becoming the number and everything after it, lowercased and
stripped, the unit; a string with no numeric run yields no pair.  A cell
that is neither a string nor missing raises (str.replace on a non-string),
modelled as an error. -/
def extract_number_unit (v : Value) : Except String (Option (String × String)) :=
  match v with
  | .nan => .ok none
  | .str s =>
      match splitFirstNumRun (s.data.filter (fun c => c ≠ ' ')) with
      | none => .ok none
      | some (_, m, r) =>
          .ok (some (String.mk m, String.mk (pyStrip (r.map Char.toLower))))
  | _ => .error "AttributeError"

/-- Whether the first list is a leading segment of the second. -/
def listPrefixOf : List Char → List Char → Bool
  | [], _ => true
  | _ :: _, [] => false
  | a :: as, b :: bs => a == b && listPrefixOf as bs

/-- Whether the first list occurs contiguously inside the second. -/
def listInfixOf (pat : List Char) : List Char → Bool
  | [] => pat.isEmpty
  | b :: bs => listPrefixOf pat (b :: bs) || listInfixOf pat bs

/-- Substring containment (the python in operator on strings). -/
def substrOf (pat s : String) : Bool := listInfixOf pat.data s.data

/-- normalize_units from clean_weight_column: classify a unit token by
case-insensitive substring containment into kg, g (grams and milliliters)
or liters; the empty token and unrecognized tokens are unclassified. -/
def normalize_units (u : String) : Option String :=
  if u == "" then none
  else
    let w := String.mk (pyStrip (u.data.map Char.toLower))
    if substrOf "kg" w || substrOf "kilogram" w then some "kg"
    else if substrOf "g" w || substrOf "gram" w then some "g"
    else if substrOf "ml" w || substrOf "milliliter" w || substrOf "millilitre" w then
      some "g"
    else if substrOf "liter" w || substrOf "liters" w || substrOf "litre" w
        || substrOf "litres" w then
      some "liters"
    else none

/-- normalize_units lifted to a unit cell: a missing unit stays missing and
an unclassified token becomes missing. -/
def unitCell (v : Value) : Value :=
  match v with
  | .str u =>
      match normalize_units u with
      | some x => .str x
      | none => .nan
  | _ => .nan

/-- convert_to_kilograms from clean_weight_column: float the number cell
(a TypeError or ValueError is caught and yields missing), then divide grams
by 1000 and pass kilograms and liters through; any other unit yields
missing. -/
def convert_to_kilograms (numv unitv : Value) : Value :=
  match numv with
  | .str ns =>
      match parseDecimal ns with
      | some q =>
          if unitv == .str "g" then .num (mkRat q.num (q.den * 1000))
          else if unitv == .str "kg" then .num q
          else if unitv == .str "liters" then .num q
          else .nan
      | none => .nan
  | _ => .nan

/-- clean_weight_column from the source: append the ephemeral number and
unit columns extracted from the weight column, normalize the unit column,
append weight_kg computed per row from number and unit, and drop weight,
number and unit.  The model assumes the appended names are fresh (the
pandas assignment would otherwise overwrite an existing column in place). -/
def clean_weight_column (t : Table) : Except String Table := do
  let pairs ← t.rows.mapM (fun r => do
      let p ← extract_number_unit (cellAt r (colIdx t "weight"))
      pure (r, p))
  let rows1 := pairs.map (fun pr =>
      pr.1 ++ [match pr.2 with | some (n, _) => Value.str n | none => Value.nan,
               match pr.2 with | some (_, u) => Value.str u | none => Value.nan])
  let t1 : Table := { schema := t.schema ++ ["number", "unit"], rows := rows1 }
  let t2 := mapCol t1 "unit" unitCell
  let iN := colIdx t2 "number"
  let iU := colIdx t2 "unit"
  let rows3 := t2.rows.map (fun r => r ++ [convert_to_kilograms (cellAt r iN) (cellAt r iU)])
  let t3 : Table := { schema := t2.schema ++ ["weight_kg"], rows := rows3 }
  pure (drop_columns t3 ["weight", "number", "unit"])

/-- A cell that is a string or the missing marker (the cells on which the
weight extraction cannot raise). -/
def isStrOrNan (v : Value) : Bool :=
  match v with
  | .str _ => true
  | .nan => true
  | _ => false

/-- The product_price cell transform, Series.str.replace removing the pound
sign: string cells lose the sign, non-string cells (missing included)
become missing under the str accessor. -/
def priceCell (v : Value) : Value :=
  match v with
  | .str s => .str (String.mk (s.data.filter (fun c => c ≠ '£')))
  | _ => .nan

/-- A well-formed product table: the expected weight and product_price
columns are present, the names introduced by the pipeline (number, unit,
weight_kg, product_price_gbp) are fresh, and every weight cell is a string
or missing (the pandas extraction raises on any other type, and the pandas
column assignment would overwrite rather than append a non-fresh name). -/
def wellFormedProduct (t : Table) : Bool :=
  t.schema.contains "weight" && t.schema.contains "product_price" &&
  !t.schema.contains "number" && !t.schema.contains "unit" &&
  !t.schema.contains "weight_kg" && !t.schema.contains "product_price_gbp" &&
  t.rows.all (fun r => isStrOrNan (cellAt r (colIdx t "weight")))

/-- clean_product_data from the source: null standardization, the
row-validity filter, the weight pipeline, the pound-sign strip and numeric
cast of product_price, the rename to product_price_gbp, and date cleaning
of date_added. -/
def clean_product_data (t : Table) : Except String Table :=
  (clean_weight_column (remove_invalid_rows (standardize_nulls t))).map
    (fun t3 => clean_dates
      (renameCol (convert_data_types (mapCol t3 "product_price" priceCell) ["product_price"])
        "product_price" "product_price_gbp")
      ["date_added"])

/-- clean_orders_data from the source. -/
def clean_orders_data (t : Table) : Table :=
  let t1 := standardize_nulls t
  let t2 := remove_invalid_rows t1
  let t3 := drop_columns t2 ["first_name", "last_name", "1"]
  convert_data_types t3 ["product_quantity"]

/-- remove_null_rows from the source: the literal NULL becomes missing and
rows missing any of timestamp, day, month, year are dropped. -/
def remove_null_rows (t : Table) : Table :=
  let t1 : Table :=
    { t with rows := t.rows.map (fun r => r.map (fun v => if v == .str "NULL" then .nan else v)) }
  { t1 with rows := t1.rows.filter (fun r =>
      ["timestamp", "day", "month", "year"].all (fun c => !isna (cellAt r (colIdx t1 c)))) }

/-- Model of the strict datetime conversion pd.to_datetime with its default
errors=raise, on the assembled year-month-day space timestamp strings of
combine_datetime_columns: numeric components forming a valid calendar date
and a valid time of day parse, anything else raises. -/
def pdToDatetimeStrict (s : String) : Option PDateTime :=
  match splitOnChar ' ' s.data with
  | [dp, tp] =>
      match splitOnChar '-' dp, splitOnChar ':' tp with
      | [y, m, d], [hh, mm, ss] =>
          if digitRun y 1 4 && digitRun m 1 2 && digitRun d 1 2
              && digitRun hh 1 2 && digitRun mm 1 2 && digitRun ss 1 2
              && validDate (digitsToNat y) (digitsToNat m) (digitsToNat d)
              && digitsToNat hh < 24 && digitsToNat mm < 60 && digitsToNat ss < 60 then
            some ⟨digitsToNat y, digitsToNat m, digitsToNat d,
                  digitsToNat hh, digitsToNat mm, digitsToNat ss⟩
          else none
      | _, _ => none
  | _ => none

/-- The assembled per-row string of combine_datetime_columns:
str(year) dash str(month) dash str(day) space timestamp. -/
def combineRowStr (iY iM iD iT : Nat) (r : List Value) : String :=
  pyStr (cellAt r iY) ++ "-" ++ pyStr (cellAt r iM) ++ "-" ++ pyStr (cellAt r iD)
    ++ " " ++ pyStr (cellAt r iT)

/-- One row of the datetime conversion: the parsed value is appended as the
new datetime cell, and a parse failure is the ValueError the raising
conversion throws. -/
def combineRowE (iY iM iD iT : Nat) (r : List Value) : Except String (List Value) :=
  match pdToDatetimeStrict (combineRowStr iY iM iD iT r) with
  | some d => .ok (r ++ [Value.dt d])
  | none => .error "ValueError"

/-- combine_datetime_columns from the source: build a datetime column from
year, month, day and timestamp with the raising conversion (no coercion in
the source), then drop the four source columns.  A row whose assembled
string does not parse makes the whole call raise. -/
def combine_datetime_columns (t : Table) : Except String Table :=
  (t.rows.mapM (combineRowE (colIdx t "year") (colIdx t "month") (colIdx t "day")
      (colIdx t "timestamp"))).map
    (fun newRows => drop_columns { schema := t.schema ++ ["datetime"], rows := newRows }
      ["timestamp", "day", "month", "year"])

/-- The table-level tail of clean_date_events_data after the JSON reshape:
null-row removal, the row-validity filter, and the datetime combine step. -/
def clean_date_events_tail (t : Table) : Except String Table :=
  combine_datetime_columns (remove_invalid_rows_date_events_data (remove_null_rows t))

/-! Theorems about the embedded cleaning functions. -/

/-- Letters and digits are disjoint char classes. -/
theorem not_isAlpha_and_isDigit (c : Char) : ¬ (c.isAlpha = true ∧ c.isDigit = true) := by
  simp only [Char.isAlpha, Char.isUpper, Char.isLower, Char.isDigit, Bool.or_eq_true,
    Bool.and_eq_true, decide_eq_true_eq, ge_iff_le]
  rintro ⟨h1 | h2, h3, h4⟩
  · exact absurd (UInt32.le_trans h1.1 h4) (by decide)
  · exact absurd (UInt32.le_trans h2.1 h4) (by decide)

/-- Characterization of is_invalid_pattern on string cells. -/
theorem is_invalid_str_iff (s : String) :
    is_invalid_pattern (.str s) = true ↔
      (s.length = 10 ∧ (∀ c ∈ s.data, c.isAlpha = true ∨ c.isDigit = true) ∧
       (∃ c ∈ s.data, c.isDigit = true) ∧ (∃ c ∈ s.data, c.isAlpha = true)) := by
  simp only [is_invalid_pattern, pyIsAlnum, pyIsDigit, pyIsAlpha, Bool.and_eq_true,
    beq_iff_eq, Bool.not_eq_true', Bool.and_eq_false_iff, Bool.not_eq_false,
    List.all_eq_true, List.all_eq_false, List.isEmpty_iff, Bool.or_eq_true]
  constructor
  · rintro ⟨⟨⟨hlen, hne, hall⟩, hD⟩, hA⟩
    refine ⟨hlen, hall, ?_, ?_⟩
    · rcases hA with hA | ⟨x, hx, hna⟩
      · rw [hne] at hA; cases hA
      · rcases hall x hx with ha | hd
        · exact absurd ha hna
        · exact ⟨x, hx, hd⟩
    · rcases hD with hD | ⟨x, hx, hnd⟩
      · rw [hne] at hD; cases hD
      · rcases hall x hx with ha | hd
        · exact ⟨x, hx, ha⟩
        · exact absurd hd hnd
  · rintro ⟨hlen, hall, ⟨cd, hcd, hcdd⟩, ⟨ca, hca, hcaa⟩⟩
    have hne : s.data.isEmpty = false := by
      cases hdata : s.data with
      | nil => rw [hdata] at hcd; cases hcd
      | cons a l => rfl
    refine ⟨⟨⟨hlen, hne, hall⟩,
      Or.inr ⟨ca, hca, fun hd => not_isAlpha_and_isDigit ca ⟨hcaa, hd⟩⟩⟩,
      Or.inr ⟨cd, hcd, fun haa => not_isAlpha_and_isDigit cd ⟨haa, hcdd⟩⟩⟩

/-- C3: the row-validity predicate used by remove_invalid_rows is true on a
cell exactly when the cell is a string of exactly 10 characters, all of them
letters or digits, with at least one digit and at least one letter; the four
literal cases of the spec behave as claimed. -/
theorem is_invalid_pattern_iff :
    (∀ v : Value, is_invalid_pattern v = true ↔
      ∃ s : String, v = .str s ∧ s.length = 10 ∧
        (∀ c ∈ s.data, c.isAlpha = true ∨ c.isDigit = true) ∧
        (∃ c ∈ s.data, c.isDigit = true) ∧ (∃ c ∈ s.data, c.isAlpha = true)) ∧
    is_invalid_pattern (.str "AB12345678") = true ∧
    is_invalid_pattern (.str "1234567890") = false ∧
    is_invalid_pattern (.str "ABCDEFGHIJ") = false ∧
    is_invalid_pattern (.str "AB1234567") = false := by
  refine ⟨?_, by decide, by decide, by decide, by decide⟩
  intro v
  cases v with
  | str s =>
      rw [is_invalid_str_iff]
      constructor
      · intro h; exact ⟨s, rfl, h⟩
      · rintro ⟨s2, hs2, h⟩; cases hs2; exact h
  | num q => simp [is_invalid_pattern]
  | date d => simp [is_invalid_pattern]
  | dt d => simp [is_invalid_pattern]
  | nan => simp [is_invalid_pattern]

/-- C1 counterexample: a row whose card_number cell is the 10-character
mixed string AB12345678 and whose store_code is the ordinary non-missing
value ST-1A is kept unchanged by remove_invalid_rows_excluding_store_code,
although the row matches the drop condition the claim states, under which
the row set would become empty. -/
theorem store_code_filter_counterexample :
    remove_invalid_rows_excluding_store_code
        ⟨["store_code", "card_number"], [[.str "ST-1A", .str "AB12345678"]]⟩ =
      ⟨["store_code", "card_number"], [[.str "ST-1A", .str "AB12345678"]]⟩ ∧
    specDropExcludingStoreCode 0 [.str "ST-1A", .str "AB12345678"] = true ∧
    removeInvalidExcludingStoreCodeSpec
        ⟨["store_code", "card_number"], [[.str "ST-1A", .str "AB12345678"]]⟩ =
      ⟨["store_code", "card_number"], []⟩ := by
  exact ⟨by decide, by decide, by decide⟩

/-- C1 amended: remove_invalid_rows_excluding_store_code drops exactly the
rows whose store_code cell is missing; the 10-character alphanumeric-mixed
predicate is not consulted, and the WEB-1388012W exemption never changes
the outcome because a missing cell never equals that literal. -/
theorem store_code_filter_drops_missing_only (t : Table) :
    (remove_invalid_rows_excluding_store_code t).schema = t.schema ∧
    (remove_invalid_rows_excluding_store_code t).rows =
      t.rows.filter (fun r => !isna (cellAt r (colIdx t "store_code"))) := by
  refine ⟨rfl, ?_⟩
  show t.rows.filter _ = t.rows.filter _
  apply List.filter_congr
  intro r _
  generalize cellAt r (colIdx t "store_code") = v
  cases v <;> rfl

/-- C9: clean_phone_number turns every cell of the phone_number column into
the string of digit characters of its python text representation; the
missing marker, whose text is nan, therefore becomes the empty string, not
missing. -/
theorem clean_phone_missing_to_empty :
    (∀ v : Value, phoneCell v = .str (String.mk ((pyStr v).data.filter Char.isDigit))) ∧
    phoneCell Value.nan = .str "" ∧
    Value.str "" ≠ Value.nan ∧
    (∀ t : Table, (clean_phone_number t).rows =
      t.rows.map (fun r => r.set (colIdx t "phone_number")
        (phoneCell (cellAt r (colIdx t "phone_number"))))) ∧
    clean_phone_number ⟨["phone_number"], [[Value.nan], [.str "(0)12-34"]]⟩ =
      ⟨["phone_number"], [[.str ""], [.str "01234"]]⟩ := by
  exact ⟨fun v => rfl, by decide, by decide, fun t => rfl, by decide⟩

/-- A map whose function fixes every member of the list is the identity. -/
theorem map_eq_self_of_forall {α : Type} (f : α → α) (l : List α) (h : ∀ a ∈ l, f a = a) :
    l.map f = l := by
  induction l with
  | nil => rfl
  | cons a t ih =>
      simp only [List.map_cons]
      rw [h a (List.mem_cons_self a t), ih (fun x hx => h x (List.mem_cons_of_mem a hx))]

/-- The cell transform of standardize_nulls is idempotent. -/
theorem standardizeCell_idem (v : Value) :
    standardizeCell (standardizeCell v) = standardizeCell v := by
  by_cases h : (v == .str "NULL" || v == .str "None" || v == .str "N/A" || v == .str "") = true
  · have h1 : standardizeCell v = Value.nan := by unfold standardizeCell; rw [if_pos h]
    rw [h1]; decide
  · have h1 : standardizeCell v = v := by unfold standardizeCell; rw [if_neg h]
    rw [h1]; exact h1

/-- C6: standardize_nulls is idempotent, and a table without any sentinel
token is returned unchanged. -/
theorem standardize_nulls_idempotent :
    (∀ t : Table, standardize_nulls (standardize_nulls t) = standardize_nulls t) ∧
    (∀ t : Table, (t.rows.all (fun r => r.all (fun v =>
        !(v == .str "NULL" || v == .str "None" || v == .str "N/A" || v == .str "")))) = true →
      standardize_nulls t = t) := by
  constructor
  · intro t
    cases t with
    | mk schema rows =>
        simp only [standardize_nulls, Table.mk.injEq, true_and, List.map_map]
        apply List.map_congr_left
        intro r _
        simp only [Function.comp_def, List.map_map]
        apply List.map_congr_left
        intro v _
        exact standardizeCell_idem v
  · intro t h
    cases t with
    | mk schema rows =>
        simp only [standardize_nulls, Table.mk.injEq, true_and]
        simp only [List.all_eq_true, Bool.not_eq_true', Bool.or_eq_false_iff] at h
        apply map_eq_self_of_forall
        intro r hr
        apply map_eq_self_of_forall
        intro v hv
        have hc := h r hr v hv
        have hnc : ¬(v == Value.str "NULL" || v == Value.str "None" || v == Value.str "N/A"
            || v == Value.str "") = true := by
          simp only [Bool.or_eq_true]
          rintro (((h1 | h2) | h3) | h4)
          · rw [hc.1.1.1] at h1; cases h1
          · rw [hc.1.1.2] at h2; cases h2
          · rw [hc.1.2] at h3; cases h3
          · rw [hc.2] at h4; cases h4
        unfold standardizeCell
        rw [if_neg hnc]


/-- Witness for the sentinel-free clause of the idempotence theorem at a
concrete table. -/
theorem standardize_nulls_idempotent_witness :
    standardize_nulls ⟨["a"], [[Value.str "x", Value.num 3]]⟩ =
      ⟨["a"], [[Value.str "x", Value.num 3]]⟩ :=
  standardize_nulls_idempotent.2 ⟨["a"], [[Value.str "x", Value.num 3]]⟩ (by decide)

/-- C10: drop_columns removes exactly the listed names that are present and
silently ignores absent names (dropping an absent name never fails and does
not change the result), as clean_orders_data relies on for first_name,
last_name and the literal 1 column. -/
theorem drop_columns_ignores_absent :
    (∀ (t : Table) (cols : List String),
        (drop_columns t cols).schema = t.schema.filter (fun c => !cols.contains c)) ∧
    (∀ (t : Table) (cols : List String),
        drop_columns t cols = drop_columns t (cols.filter (fun c => t.schema.contains c))) ∧
    (∀ t : Table, (clean_orders_data t).schema =
        t.schema.filter (fun c => !(["first_name", "last_name", "1"].contains c))) := by
  refine ⟨fun t cols => rfl, ?_, fun t => rfl⟩
  intro t cols
  cases t with
  | mk schema rows =>
      have hkey : ∀ c ∈ schema,
          (!cols.contains c) = (!(cols.filter (fun x => schema.contains x)).contains c) := by
        intro c hc
        have h2 : cols.contains c = (cols.filter (fun x => schema.contains x)).contains c := by
          rw [Bool.eq_iff_iff]
          simp only [List.contains, List.elem_iff]
          constructor
          · intro h3; exact List.mem_filter.mpr ⟨h3, List.elem_iff.mpr hc⟩
          · intro h3; exact (List.mem_filter.mp h3).1
        rw [h2]
      simp only [drop_columns, Table.mk.injEq]
      constructor
      · exact List.filter_congr (fun c hc => hkey c hc)
      · apply List.map_congr_left
        intro r hr
        congr 1
        apply List.filter_congr
        intro p hp
        exact hkey p.1 (List.of_mem_zip hp).1


/-- C2 counterexample: the cell 01/04/2023 is parsed by the generic
month-first parser before the day/month/year format rule is ever consulted,
so clean_dates produces 2023-01-04 and not the claimed 2023-04-01. -/
theorem clean_dates_dmy_counterexample :
    cleanDateCell (.str "01/04/2023") = .date ⟨2023, 1, 4⟩ ∧
    Value.date ⟨2023, 1, 4⟩ ≠ Value.date ⟨2023, 4, 1⟩ ∧
    clean_dates ⟨["date_of_birth"], [[.str "01/04/2023"]]⟩ ["date_of_birth"] ≠
      ⟨["date_of_birth"], [[.date ⟨2023, 4, 1⟩]]⟩ := by
  exact ⟨by decide, by decide, by decide⟩

/-- C2 amended: literal cases of the date cleaner with the generic parser
applied first.  2023-04-01 parses to 2023-04-01 and not-a-date becomes
missing as claimed; 04/23 is not parsed by the generic parser (no year, so
coercion yields NaT) and the month/two-digit-year rule gives 2023-04-01,
month 4 of year 2023, as claimed; only 01/04/2023 differs from the claim,
parsing month-first to 2023-01-04. -/
theorem clean_dates_literal_cases :
    cleanDateCell (.str "2023-04-01") = .date ⟨2023, 4, 1⟩ ∧
    cleanDateCell (.str "01/04/2023") = .date ⟨2023, 1, 4⟩ ∧
    cleanDateCell (.str "04/23") = .date ⟨2023, 4, 1⟩ ∧
    cleanDateCell (.str "not-a-date") = Value.nan ∧
    clean_dates ⟨["join_date"],
        [[.str "2023-04-01"], [.str "04/23"], [.str "not-a-date"]]⟩ ["join_date"] =
      ⟨["join_date"], [[.date ⟨2023, 4, 1⟩], [.date ⟨2023, 4, 1⟩], [Value.nan]]⟩ :=
  ⟨rfl, rfl, rfl, rfl, rfl⟩

/-- C8: clean_country_columns corrects GGB to GB and keeps USA; on the
country_code column any value whose text contains a digit, or is longer
than 3 characters, becomes missing. -/
theorem clean_country_code_cases :
    clean_country_columns ⟨["country", "country_code"],
        [[.str "UK", .str "GGB"], [.str "US", .str "USA1"], [.str "US", .str "USA"]]⟩ =
      ⟨["country", "country_code"],
        [[.str "UK", .str "GB"], [.str "US", Value.nan], [.str "US", .str "USA"]]⟩ ∧
    (∀ s : String, s.data.any Char.isDigit = true →
      countryCodeFix (countryCodeCell (.str s)) = Value.nan) ∧
    (∀ s : String, 3 < s.length →
      countryCodeFix (countryCodeCell (.str s)) = Value.nan) := by
  refine ⟨by decide, ?_, ?_⟩
  · intro s h
    have hcell : countryCodeCell (.str s) = Value.nan := by
      unfold countryCodeCell
      rw [show pyStr (Value.str s) = s from rfl, h]
      rfl
    rw [hcell]
    decide
  · intro s h
    have hlen : decide (s.length ≤ 3) = false := decide_eq_false (by omega)
    have hcell : countryCodeCell (.str s) = Value.nan := by
      unfold countryCodeCell
      rw [show pyStr (Value.str s) = s from rfl, hlen, Bool.and_false]
      rfl
    rw [hcell]
    decide

/-- Witness instantiating the digit and length clauses of the country-code
theorem at concrete codes. -/
theorem clean_country_code_cases_witness :
    countryCodeFix (countryCodeCell (.str "USA1")) = Value.nan ∧
    countryCodeFix (countryCodeCell (.str "ABCD")) = Value.nan :=
  ⟨clean_country_code_cases.2.1 "USA1" (by decide),
   clean_country_code_cases.2.2 "ABCD" (by decide)⟩

/-- Dividing by 1000 in the weight conversion, expressed through mkRat,
agrees with rational division. -/
theorem mkRat_den_mul_1000 (q : ℚ) : mkRat q.num (q.den * 1000) = q / 1000 := by
  rw [Rat.mkRat_eq_divInt, Rat.divInt_eq_div]
  push_cast
  rw [div_mul_eq_div_div, Rat.num_div_den]

/-- C4: the quantity normalizer maps 100g to 0.1, 1.5kg to 1.5, 2 liters
to 2, abc to missing and kg100 to missing; grams are divided by 1000 while
kilograms and liters pass through unchanged. -/
theorem clean_weight_literal_cases :
    clean_weight_column ⟨["weight"], [[.str "100g"], [.str "1.5kg"], [.str "2 liters"],
        [.str "abc"], [.str "kg100"]]⟩ =
      .ok ⟨["weight_kg"], [[.num (1 / 10)], [.num (3 / 2)], [.num 2],
        [Value.nan], [Value.nan]]⟩ ∧
    (∀ ns : String, convert_to_kilograms (.str ns) (.str "g") =
      (match parseDecimal ns with | some q => .num (q / 1000) | none => Value.nan)) ∧
    (∀ ns : String, convert_to_kilograms (.str ns) (.str "kg") =
      (match parseDecimal ns with | some q => .num q | none => Value.nan)) ∧
    (∀ ns : String, convert_to_kilograms (.str ns) (.str "liters") =
      (match parseDecimal ns with | some q => .num q | none => Value.nan)) := by
  refine ⟨?_, ?_, ?_, ?_⟩
  · have e1 : (1 / 10 : ℚ) = mkRat 1 10 := by
      norm_num [Rat.mkRat_eq_divInt, Rat.divInt_eq_div]
    have e2 : (3 / 2 : ℚ) = mkRat 3 2 := by
      norm_num [Rat.mkRat_eq_divInt, Rat.divInt_eq_div]
    rw [e1, e2]
    decide
  · intro ns
    have e : convert_to_kilograms (.str ns) (.str "g") =
        (match parseDecimal ns with
          | some q => Value.num (mkRat q.num (q.den * 1000))
          | none => Value.nan) := rfl
    rw [e]
    cases hp : parseDecimal ns with
    | none => rfl
    | some q =>
        show Value.num (mkRat q.num (q.den * 1000)) = Value.num (q / 1000)
        rw [mkRat_den_mul_1000]
  · intro ns
    have e : convert_to_kilograms (.str ns) (.str "kg") =
        (match parseDecimal ns with
          | some q => Value.num q
          | none => Value.nan) := rfl
    rw [e]
  · intro ns
    have e : convert_to_kilograms (.str ns) (.str "liters") =
        (match parseDecimal ns with
          | some q => Value.num q
          | none => Value.nan) := rfl
    rw [e]

/-- A string-or-missing cell always extracts without raising. -/
theorem extract_ok_of_strOrNan (v : Value) (h : isStrOrNan v = true) :
    ∃ p, extract_number_unit v = .ok p := by
  cases v with
  | str s =>
      simp only [extract_number_unit]
      cases splitFirstNumRun (s.data.filter (fun c => c ≠ ' ')) with
      | none => exact ⟨none, rfl⟩
      | some x =>
          obtain ⟨p, m, r⟩ := x
          exact ⟨_, rfl⟩
  | nan => exact ⟨none, rfl⟩
  | num q => cases h
  | date d => cases h
  | dt d => cases h

/-- The extraction pass over all rows succeeds when every weight cell is a
string or missing. -/
theorem extract_rows_ok (i : Nat) (l : List (List Value))
    (h : ∀ r ∈ l, isStrOrNan (cellAt r i) = true) :
    ∃ ps, l.mapM (fun r => do
        let p ← extract_number_unit (cellAt r i)
        pure (r, p)) = .ok ps := by
  induction l with
  | nil => exact ⟨[], rfl⟩
  | cons r l ih =>
      rw [List.mapM_cons]
      obtain ⟨p, hp⟩ := extract_ok_of_strOrNan _ (h r (List.mem_cons_self r l))
      obtain ⟨ps, hps⟩ := ih (fun r2 hr2 => h r2 (List.mem_cons_of_mem r hr2))
      rw [hp, hps]
      exact ⟨(r, p) :: ps, rfl⟩

/-- The per-row datetime conversion errors exactly on rows whose assembled
string fails the strict parse, and the error is always the ValueError. -/
theorem combineRows_error_iff (iY iM iD iT : Nat) (l : List (List Value)) :
    l.mapM (combineRowE iY iM iD iT) = .error "ValueError" ↔
      ∃ r ∈ l, pdToDatetimeStrict (combineRowStr iY iM iD iT r) = none := by
  induction l with
  | nil =>
      constructor
      · intro h; exact absurd h (fun hc => Except.noConfusion hc)
      · rintro ⟨r, hr, _⟩; cases hr
  | cons r l ih =>
      rw [List.mapM_cons]
      constructor
      · intro h
        cases hr : pdToDatetimeStrict (combineRowStr iY iM iD iT r) with
        | none => exact ⟨r, List.mem_cons_self r l, hr⟩
        | some d =>
            have hE : combineRowE iY iM iD iT r = .ok (r ++ [Value.dt d]) := by
              unfold combineRowE; rw [hr]
            rw [hE] at h
            cases hc : List.mapM (combineRowE iY iM iD iT) l with
            | ok bs => rw [hc] at h; exact absurd h (fun hx => Except.noConfusion hx)
            | error e2 =>
                rw [hc] at h
                have he2 : e2 = "ValueError" := Except.error.inj h
                obtain ⟨r2, hr2, hnone⟩ := ih.mp (he2 ▸ hc)
                exact ⟨r2, List.mem_cons_of_mem r hr2, hnone⟩
      · rintro ⟨r2, hr2, hnone⟩
        rcases List.mem_cons.mp hr2 with heq | hr2l
        · subst heq
          have hE : combineRowE iY iM iD iT r2 = .error "ValueError" := by
            unfold combineRowE; rw [hnone]
          rw [hE]
          rfl
        · cases hr : pdToDatetimeStrict (combineRowStr iY iM iD iT r) with
          | none =>
              have hE : combineRowE iY iM iD iT r = .error "ValueError" := by
                unfold combineRowE; rw [hr]
              rw [hE]; rfl
          | some d =>
              have hE : combineRowE iY iM iD iT r = .ok (r ++ [Value.dt d]) := by
                unfold combineRowE; rw [hr]
              have hl : List.mapM (combineRowE iY iM iD iT) l = .error "ValueError" :=
                ih.mpr ⟨r2, hr2l, hnone⟩
              rw [hE, hl]
              rfl


/-- C5 counterexample: a date-events row that survives the null filter and
the row-validity filter but carries an unparseable timestamp makes the
combine step raise a ValueError instead of producing a missing cell. -/
theorem combine_datetime_raises_counterexample :
    clean_date_events_tail ⟨["timestamp", "month", "year", "day", "time_period", "date_uuid"],
        [[.str "bad-time", .str "5", .str "2012", .str "21", .str "Evening", .str "u2"]]⟩ =
      .error "ValueError" := by decide

/-- C5 amended: cell-level parse failures in the date cleaner yield missing
and the weight pipeline succeeds on string-or-missing cells, but
combine_datetime_columns raises exactly when the assembled
year-month-day timestamp string fails to parse. -/
theorem parse_recovery_and_combine_raises :
    (∀ v : Value,
        cleanDateCell v = Value.nan ∨ ∃ d, cleanDateCell v = .date d) ∧
    (∀ t : Table,
        (t.rows.all (fun r => isStrOrNan (cellAt r (colIdx t "weight")))) = true →
        ∃ t2, clean_weight_column t = .ok t2) ∧
    (∀ t : Table, combine_datetime_columns t = .error "ValueError" ↔
        ∃ r ∈ t.rows, pdToDatetimeStrict (combineRowStr (colIdx t "year") (colIdx t "month")
          (colIdx t "day") (colIdx t "timestamp") r) = none) := by
  refine ⟨?_, ?_, ?_⟩
  · intro v
    unfold cleanDateCell
    cases pdGenericDate v with
    | some d => exact Or.inr ⟨d, rfl⟩
    | none =>
        cases parse_non_standard_dates v with
        | some d => exact Or.inr ⟨d, rfl⟩
        | none => exact Or.inl rfl
  · intro t h
    rw [List.all_eq_true] at h
    obtain ⟨ps, hps⟩ := extract_rows_ok (colIdx t "weight") t.rows (fun r hr => h r hr)
    unfold clean_weight_column
    rw [hps]
    exact ⟨_, rfl⟩
  · intro t
    constructor
    · intro h
      cases hm : t.rows.mapM (combineRowE (colIdx t "year") (colIdx t "month")
          (colIdx t "day") (colIdx t "timestamp")) with
      | ok rs =>
          unfold combine_datetime_columns at h
          rw [hm] at h
          exact absurd h (fun hc => Except.noConfusion hc)
      | error e =>
          unfold combine_datetime_columns at h
          rw [hm] at h
          have he : e = "ValueError" := Except.error.inj h
          exact (combineRows_error_iff _ _ _ _ _).mp (he ▸ hm)
    · intro hex
      have hm := (combineRows_error_iff (colIdx t "year") (colIdx t "month")
          (colIdx t "day") (colIdx t "timestamp") t.rows).mpr hex
      unfold combine_datetime_columns
      rw [hm]
      rfl

/-- Witness instantiating the weight-success clause of the recovery theorem
at a concrete table. -/
theorem parse_recovery_witness :
    ∃ t2, clean_weight_column ⟨["weight"], [[.str "5kg"], [Value.nan]]⟩ = .ok t2 :=
  parse_recovery_and_combine_raises.2.1 ⟨["weight"], [[.str "5kg"], [Value.nan]]⟩ (by decide)

/-- Reading a cell through a missing-preserving cell map commutes with the
map. -/
theorem cellAt_map (f : Value → Value) (hf : f .nan = .nan) (r : List Value) (i : Nat) :
    cellAt (r.map f) i = f (cellAt r i) := by
  induction r generalizing i with
  | nil => simp [cellAt, hf]
  | cons a l ih =>
      cases i with
      | zero => rfl
      | succ n => exact ih n

/-- Null standardization keeps string-or-missing cells string-or-missing. -/
theorem isStrOrNan_standardizeCell (v : Value) (h : isStrOrNan v = true) :
    isStrOrNan (standardizeCell v) = true := by
  cases v with
  | str s =>
      unfold standardizeCell
      by_cases hs : (Value.str s == Value.str "NULL" || Value.str s == Value.str "None"
          || Value.str s == Value.str "N/A" || Value.str s == Value.str "") = true
      · rw [if_pos hs]; rfl
      · rw [if_neg hs]; rfl
  | nan => rfl
  | num q => cases h
  | date d => cases h
  | dt d => cases h

/-- The schema produced by a successful weight cleaning: the appended
number, unit and weight_kg columns minus the dropped weight, number and
unit. -/
theorem clean_weight_column_schema (t t2 : Table) (hok : clean_weight_column t = .ok t2) :
    t2.schema = ((t.schema ++ ["number", "unit"]) ++ ["weight_kg"]).filter
      (fun c => !(["weight", "number", "unit"].contains c)) := by
  unfold clean_weight_column at hok
  cases hm : t.rows.mapM (fun r => do
      let p ← extract_number_unit (cellAt r (colIdx t "weight"))
      pure (r, p)) with
  | error e => rw [hm] at hok; exact absurd hok (fun hc => Except.noConfusion hc)
  | ok ps =>
      rw [hm] at hok
      have h2 := Except.ok.inj hok
      rw [← h2]
      rfl


/-- C7: for every well-formed product table the pipeline succeeds and its
output schema is the input schema with weight removed, product_price renamed
to product_price_gbp, weight_kg appended, and the ephemeral number and unit
columns absent. -/
theorem clean_product_schema (t : Table) (h : wellFormedProduct t = true) :
    ∃ t2, clean_product_data t = .ok t2 ∧
      t2.schema = (t.schema.filter (fun c => !(c == "weight"))).map
          (fun c => if c == "product_price" then "product_price_gbp" else c) ++ ["weight_kg"] ∧
      t2.schema.contains "product_price_gbp" = true ∧
      t2.schema.contains "weight_kg" = true ∧
      t2.schema.contains "weight" = false ∧
      t2.schema.contains "number" = false ∧
      t2.schema.contains "unit" = false := by
  simp only [wellFormedProduct, Bool.and_eq_true, Bool.not_eq_true'] at h
  obtain ⟨⟨⟨⟨⟨⟨hw, hp⟩, hn⟩, hu⟩, hwk⟩, hpg⟩, hcells⟩ := h
  have hcellsX : ∀ r ∈ (remove_invalid_rows (standardize_nulls t)).rows,
      isStrOrNan (cellAt r (colIdx (remove_invalid_rows (standardize_nulls t)) "weight")) = true := by
    intro r hr
    have hr1 : r ∈ (standardize_nulls t).rows := List.mem_of_mem_filter hr
    obtain ⟨r0, hr0, hee⟩ := List.mem_map.mp hr1
    subst hee
    rw [show colIdx (remove_invalid_rows (standardize_nulls t)) "weight" = colIdx t "weight"
      from rfl]
    rw [cellAt_map standardizeCell rfl]
    exact isStrOrNan_standardizeCell _ (List.all_eq_true.mp hcells r0 hr0)
  obtain ⟨ps, hps⟩ := extract_rows_ok
      (colIdx (remove_invalid_rows (standardize_nulls t)) "weight")
      (remove_invalid_rows (standardize_nulls t)).rows hcellsX
  have hok : ∃ t3, clean_weight_column (remove_invalid_rows (standardize_nulls t)) = .ok t3 := by
    unfold clean_weight_column
    rw [hps]
    exact ⟨_, rfl⟩
  obtain ⟨t3, ht3⟩ := hok
  have ht3s := clean_weight_column_schema _ _ ht3
  have hnotin : ∀ x : String, t.schema.contains x = false →
      ∀ c ∈ t.schema, (c == x) = false := by
    intro x hx c hc
    rw [beq_eq_false_iff_ne]
    intro he
    subst he
    have h3 : t.schema.contains c = true := List.elem_iff.mpr hc
    rw [h3] at hx
    cases hx
  have hschema : (clean_dates
      (renameCol (convert_data_types (mapCol t3 "product_price" priceCell) ["product_price"])
        "product_price" "product_price_gbp") ["date_added"]).schema =
      (t.schema.filter (fun c => !(c == "weight"))).map
        (fun c => if c == "product_price" then "product_price_gbp" else c) ++ ["weight_kg"] := by
    show t3.schema.map (fun c => if c == "product_price" then "product_price_gbp" else c) = _
    rw [ht3s]
    rw [List.filter_append, List.filter_append]
    rw [show (["number", "unit"] : List String).filter
        (fun c => !(["weight", "number", "unit"].contains c)) = [] from rfl]
    rw [show (["weight_kg"] : List String).filter
        (fun c => !(["weight", "number", "unit"].contains c)) = ["weight_kg"] from rfl]
    rw [List.append_nil, List.map_append]
    congr 1
    · congr 1
      apply List.filter_congr
      intro c hc
      by_cases hcw : c = "weight"
      · subst hcw; decide
      · have h1 : (c == "weight") = false := beq_eq_false_iff_ne.mpr hcw
        have h2 : (c == "number") = false := hnotin "number" hn c hc
        have h3 : (c == "unit") = false := hnotin "unit" hu c hc
        simp only [List.contains_eq_any_beq, List.any_cons, List.any_nil]
        rw [h1, h2, h3]
        rfl
  refine ⟨_, ?_, hschema, ?_, ?_, ?_, ?_, ?_⟩
  · unfold clean_product_data
    rw [ht3]
    rfl
  · rw [hschema]
    apply List.elem_iff.mpr
    apply List.mem_append_left
    apply List.mem_map.mpr
    refine ⟨"product_price", List.mem_filter.mpr ⟨List.elem_iff.mp hp, by decide⟩, rfl⟩
  · rw [hschema]
    apply List.elem_iff.mpr
    apply List.mem_append_right
    exact List.mem_singleton.mpr rfl
  · rw [hschema]
    rw [Bool.eq_false_iff]
    intro hc
    rcases List.mem_append.mp (List.elem_iff.mp hc) with hl | hr
    · obtain ⟨c, hcf, hrenc⟩ := List.mem_map.mp hl
      by_cases hcp : c = "product_price"
      · subst hcp
        exact absurd hrenc (by decide)
      · rw [beq_eq_false_iff_ne.mpr hcp] at hrenc
        simp only [Bool.false_eq_true, if_false] at hrenc
        subst hrenc
        have := (List.mem_filter.mp hcf).2
        rw [show ((("weight" : String) == "weight") : Bool) = true from rfl] at this
        cases this
    · exact absurd (List.mem_singleton.mp hr) (by decide)
  · rw [hschema]
    rw [Bool.eq_false_iff]
    intro hc
    rcases List.mem_append.mp (List.elem_iff.mp hc) with hl | hr
    · obtain ⟨c, hcf, hrenc⟩ := List.mem_map.mp hl
      by_cases hcp : c = "product_price"
      · subst hcp
        exact absurd hrenc (by decide)
      · rw [beq_eq_false_iff_ne.mpr hcp] at hrenc
        simp only [Bool.false_eq_true, if_false] at hrenc
        subst hrenc
        have hcm := (List.mem_filter.mp hcf).1
        have := hnotin "number" hn _ hcm
        rw [show ((("number" : String) == "number") : Bool) = true from rfl] at this
        cases this
    · exact absurd (List.mem_singleton.mp hr) (by decide)
  · rw [hschema]
    rw [Bool.eq_false_iff]
    intro hc
    rcases List.mem_append.mp (List.elem_iff.mp hc) with hl | hr
    · obtain ⟨c, hcf, hrenc⟩ := List.mem_map.mp hl
      by_cases hcp : c = "product_price"
      · subst hcp
        exact absurd hrenc (by decide)
      · rw [beq_eq_false_iff_ne.mpr hcp] at hrenc
        simp only [Bool.false_eq_true, if_false] at hrenc
        subst hrenc
        have hcm := (List.mem_filter.mp hcf).1
        have := hnotin "unit" hu _ hcm
        rw [show ((("unit" : String) == "unit") : Bool) = true from rfl] at this
        cases this
    · exact absurd (List.mem_singleton.mp hr) (by decide)

/-- Witness instantiating the product schema theorem at a concrete
well-formed product table. -/
theorem clean_product_schema_witness :
    ∃ t2, clean_product_data
        ⟨["product_price", "weight", "date_added"],
         [[.str "£1.50", .str "2kg", .str "2023-04-01"]]⟩ = .ok t2 ∧
      t2.schema = ((["product_price", "weight", "date_added"] : List String).filter
          (fun c => !(c == "weight"))).map
          (fun c => if c == "product_price" then "product_price_gbp" else c) ++ ["weight_kg"] ∧
      t2.schema.contains "product_price_gbp" = true ∧
      t2.schema.contains "weight_kg" = true ∧
      t2.schema.contains "weight" = false ∧
      t2.schema.contains "number" = false ∧
      t2.schema.contains "unit" = false :=
  clean_product_schema
    ⟨["product_price", "weight", "date_added"],
     [[.str "£1.50", .str "2kg", .str "2023-04-01"]]⟩ (by decide)

end DataCleaning
